import Mathlib

/-!
Verification of the incremental asset-compilation tasks of the build script:
three task classes (MaterialCompiler, IblGenerator, MeshCompiler) that map
input files to output files, invoke an external compiler for each changed
input, and clean up outputs of removed inputs, plus the tool-discovery
function getBinaries.

File names and paths are modelled as lists of characters.  The Groovy/Java
string primitives used by the mappers (String.lastIndexOf, the Groovy range
subscript s[f..t] with its negative-index normalisation, Java substring) are
embedded faithfully; an index-out-of-bounds exception is modelled as `none`.
-/

abbrev FPath := List Char

abbrev Fp := Nat

/-- Java `name.lastIndexOf('.')`: the index of the last dot, `-1` when there
is none. -/
def lastIndexOfDot : FPath → Int
  | [] => -1
  | c :: rest =>
      if lastIndexOfDot rest ≥ 0 then lastIndexOfDot rest + 1
      else if c = '.' then 0 else -1

/-- Java `s.substring(a, b)`; `none` models the
`StringIndexOutOfBoundsException` raised when the bounds are invalid. -/
def substringJava (s : FPath) (a b : Int) : Option FPath :=
  if 0 ≤ a ∧ a ≤ b ∧ b ≤ (s.length : Int) then
    some ((s.drop a.toNat).take (b - a).toNat)
  else none

/-- The negative-index normalisation performed by Groovy's
`IntRange.subListBorders`: a negative index counts from the end. -/
def normIdx (size i : Int) : Int := if i < 0 then i + size else i

/-- Groovy `s[f..t]` on a string (an inclusive `IntRange` subscript): both
bounds are normalised, a descending normalised range yields the reversed
substring, and invalid borders raise (modelled as `none`), exactly as in
`DefaultGroovyMethods.getAt(String, Range)`. -/
def groovyGetAt (s : FPath) (f t : Int) : Option FPath :=
  if normIdx s.length f > normIdx s.length t then
    (substringJava s (normIdx s.length t) (normIdx s.length f + 1)).map List.reverse
  else substringJava s (normIdx s.length f) (normIdx s.length t + 1)

/-- An output file: a name inside an output directory (`new File(dir, name)`). -/
structure OutFile where
  dir : FPath
  name : FPath
deriving DecidableEq

/-- MaterialCompiler.getOutputFile's name computation:
`file.name[0..file.name.lastIndexOf('.')] + 'filamat'`. -/
def MaterialCompiler.outputName (name : FPath) : Option FPath :=
  (groovyGetAt name 0 (lastIndexOfDot name)).map (fun b => b ++ "filamat".toList)

/-- `MaterialCompiler.getOutputFile`: output file in the output directory. -/
def MaterialCompiler.getOutputFile (outputDir name : FPath) : Option OutFile :=
  (MaterialCompiler.outputName name).map (fun o => { dir := outputDir, name := o })

/-- IblGenerator.getOutputFile's name computation:
`file.name[0..file.name.lastIndexOf('.') - 1]`. -/
def IblGenerator.outputName (name : FPath) : Option FPath :=
  groovyGetAt name 0 (lastIndexOfDot name - 1)

/-- `IblGenerator.getOutputFile`: output entry in the output directory. -/
def IblGenerator.getOutputFile (outputDir name : FPath) : Option OutFile :=
  (IblGenerator.outputName name).map (fun o => { dir := outputDir, name := o })

/-- MeshCompiler.getOutputFile's name computation:
`file.name[0..file.name.lastIndexOf('.')] + 'filamesh'`. -/
def MeshCompiler.outputName (name : FPath) : Option FPath :=
  (groovyGetAt name 0 (lastIndexOfDot name)).map (fun b => b ++ "filamesh".toList)

/-- `MeshCompiler.getOutputFile`: output file in the output directory. -/
def MeshCompiler.getOutputFile (outputDir name : FPath) : Option OutFile :=
  (MeshCompiler.outputName name).map (fun o => { dir := outputDir, name := o })

/-! ### Evaluation lemmas for the Groovy range subscript -/

theorem lastIndexOfDot_of_no_dot (s : FPath) (h : '.' ∉ s) : lastIndexOfDot s = -1 := by
  induction s with
  | nil => rfl
  | cons c rest ih =>
      have hc : c ≠ '.' := fun hc => h (hc ▸ List.mem_cons_self c rest)
      have hr : lastIndexOfDot rest = -1 := ih (fun hm => h (List.mem_cons_of_mem c hm))
      rw [lastIndexOfDot, hr]
      simp [hc]

theorem lastIndexOfDot_append_dot (b e : FPath) (he : lastIndexOfDot e = -1) :
    lastIndexOfDot (b ++ '.' :: e) = (b.length : Int) := by
  induction b with
  | nil =>
      rw [List.nil_append, lastIndexOfDot, he]
      simp
  | cons c b ih =>
      rw [List.cons_append, lastIndexOfDot, ih]
      have : ((b.length : Int) ≥ 0) := by positivity
      simp [this]

theorem groovyGetAt_zero_nonneg (s : FPath) (t : Int) (h0 : 0 ≤ t)
    (h1 : t < (s.length : Int)) :
    groovyGetAt s 0 t = some (s.take (t.toNat + 1)) := by
  have hn0 : normIdx s.length 0 = 0 := by simp [normIdx]
  have hnt : normIdx s.length t = t := by simp [normIdx]; omega
  rw [groovyGetAt, hn0, hnt, if_neg (by omega), substringJava,
    if_pos (by refine ⟨le_refl 0, by omega, by omega⟩)]
  have h2 : (0 : Int).toNat = 0 := rfl
  have h3 : (t + 1 - 0).toNat = t.toNat + 1 := by omega
  rw [h2, h3, List.drop_zero]

theorem groovyGetAt_zero_neg_one (s : FPath) (h : s ≠ []) :
    groovyGetAt s 0 (-1) = some s := by
  have hlen : 1 ≤ s.length := List.length_pos.mpr h
  have hn0 : normIdx s.length 0 = 0 := by simp [normIdx]
  have hnt : normIdx s.length (-1) = (s.length : Int) - 1 := by
    simp [normIdx]
    omega
  rw [groovyGetAt, hn0, hnt, if_neg (by omega), substringJava,
    if_pos (by refine ⟨le_refl 0, by omega, by omega⟩)]
  have h2 : (0 : Int).toNat = 0 := rfl
  have h3 : ((s.length : Int) - 1 + 1 - 0).toNat = s.length := by omega
  rw [h2, h3, List.drop_zero, List.take_length]

theorem groovyGetAt_zero_neg_two (s : FPath) (h : 2 ≤ s.length) :
    groovyGetAt s 0 (-2) = some (s.take (s.length - 1)) := by
  have hn0 : normIdx s.length 0 = 0 := by simp [normIdx]
  have hnt : normIdx s.length (-2) = (s.length : Int) - 2 := by
    simp [normIdx]
    omega
  rw [groovyGetAt, hn0, hnt, if_neg (by omega), substringJava,
    if_pos (by refine ⟨le_refl 0, by omega, by omega⟩)]
  have h2 : (0 : Int).toNat = 0 := rfl
  have h3 : ((s.length : Int) - 2 + 1 - 0).toNat = s.length - 1 := by omega
  rw [h2, h3, List.drop_zero]

theorem groovyGetAt_len_one_neg_two (s : FPath) (h : s.length = 1) :
    groovyGetAt s 0 (-2) = none := by
  have hn0 : normIdx s.length 0 = 0 := by simp [normIdx]
  have hnt : normIdx s.length (-2) = -1 := by
    simp [normIdx, h]
  rw [groovyGetAt, hn0, hnt, if_pos (by omega), substringJava,
    if_neg (by omega)]
  rfl

/-! ### External process invocations and task bindings -/

/-- One invocation of an external executable with its argument list
(`project.exec` with `executable` and `args`). -/
structure Invocation where
  exe : FPath
  args : List FPath
deriving DecidableEq

/-- Joining an output directory and a file name into a full path
(`new File(dir, name).toString`). -/
def filePath (dir name : FPath) : FPath := dir ++ '/' :: name

/-- MaterialCompiler's per-input invocation, from
`args('-O', '-p', 'mobile', '-o', getOutputFile(file), file)`.  The output
path is recomputed by the mapper exactly as in the source; the default is
never reached when the mapper succeeds. -/
def MaterialCompiler.invocations (matcPath outputDir file : FPath) : List Invocation :=
  [{ exe := matcPath,
     args := ["-O".toList, "-p".toList, "mobile".toList, "-o".toList,
              filePath outputDir ((MaterialCompiler.outputName file).getD []), file] }]

/-- IblGenerator's per-input invocations, from the two `project.exec` blocks:
`args('-x', outputDir, file)` followed by
`args('--format=rgbm', '--extract-blur=0.08', "--extract=...", file)`. -/
def IblGenerator.invocations (cmgenPath outputDir file : FPath) : List Invocation :=
  [{ exe := cmgenPath, args := ["-x".toList, outputDir, file] },
   { exe := cmgenPath,
     args := ["--format=rgbm".toList, "--extract-blur=0.08".toList,
              "--extract=".toList ++ outputDir, file] }]

/-- MeshCompiler's per-input invocation, from
`args(file, getOutputFile(file))`. -/
def MeshCompiler.invocations (filameshPath outputDir file : FPath) : List Invocation :=
  [{ exe := filameshPath,
     args := [file, filePath outputDir ((MeshCompiler.outputName file).getD [])] }]

/-! ### Tool discovery (getBinaries) -/

/-- The two candidate binary locations built by `getBinaries`:
`toolsPath + "/bin/name.exe"` and `toolsPath + "/bin/name"`. -/
def binCandidates (name toolsPath : FPath) : List FPath :=
  [toolsPath ++ "/bin/".toList ++ name ++ ".exe".toList,
   toolsPath ++ "/bin/".toList ++ name]

/-- `getBinaries`: returns both candidate paths when at least one of them
exists on disk, and raises `StopActionException` (modelled as
`Except.error`) when neither does. -/
def getBinaries (name toolsPath : FPath) (fileExists : FPath → Bool) :
    Except FPath (List FPath) :=
  let tool := binCandidates name toolsPath
  if tool.any fileExists then Except.ok tool
  else Except.error ("No binary found: ".toList ++ name)

/-- The task constructors select `fullPath[0]` on Windows and `fullPath[1]`
otherwise. -/
def selectBinary (isWindows : Bool) (bins : List FPath) : FPath :=
  if isWindows then bins.headD [] else (bins.drop 1).headD []

/-! ### The incremental task engine

The delta computation, snapshot bookkeeping and per-input failure handling
are performed by the external incremental-build host, not by code in this
repository; they are modelled here from the spec (sections 4.1 and 4.3).
The task-specific pieces (output mappers, argument lists, clean-up
patterns) are taken from the source. -/

/-- A build-state snapshot: previously seen input names with their
fingerprints, keyed by input path. -/
abbrev Snapshot := List (FPath × Fp)

/-- The relevant filesystem state for one task run: the current input files
with their fingerprints, and the files currently in the output directory. -/
structure FS where
  inputs : List (FPath × Fp)
  outFiles : List FPath
deriving DecidableEq

/-- The external tool, as an oracle: for an invocation, whether it exits
with status zero, and the captured standard-error stream. -/
abbrev Tool := Invocation → Bool × List Char

/-- Modelled from the spec: the Process Runner (section 4.3) is applied to
each invocation of an input in order; a non-zero exit stops that input's
processing and yields the captured stderr.  Returns (success, stderr of the
failing invocation, invocations actually attempted). -/
def runInvs (tool : Tool) : List Invocation → Bool × List Char × List Invocation
  | [] => (true, [], [])
  | i :: rest =>
      if (tool i).1 then
        ((runInvs tool rest).1, (runInvs tool rest).2.1, i :: (runInvs tool rest).2.2)
      else (false, (tool i).2, [i])

/-- A task binding: the output mapper (file names within the output
directory), the per-input invocation list, and the clean-up pattern for a
full rebuild.  The tool executable path is baked in by the concrete
bindings below. -/
structure TaskSpec where
  mapOut : FPath → FPath → Option (List FPath)
  invocations : FPath → FPath → List Invocation
  outputPattern : FPath → Bool

/-- Material task binding (matc): mapper and arguments from the source,
clean-up pattern from `include '*.filamat'`. -/
def materialSpec (matcPath : FPath) : TaskSpec where
  mapOut := fun _dir input => (MaterialCompiler.outputName input).map (fun o => [o])
  invocations := fun dir input => MaterialCompiler.invocations matcPath dir input
  outputPattern := fun f => ".filamat".toList.isSuffixOf f

/-- IBL task binding (cmgen): mapper and arguments from the source,
clean-up pattern from `include '*'` (every file). -/
def iblSpec (cmgenPath : FPath) : TaskSpec where
  mapOut := fun _dir input => (IblGenerator.outputName input).map (fun o => [o])
  invocations := fun dir input => IblGenerator.invocations cmgenPath dir input
  outputPattern := fun _ => true

/-- Mesh task binding (filamesh): mapper and arguments from the source,
clean-up pattern from `include '*.filamesh'`. -/
def meshSpec (filameshPath : FPath) : TaskSpec where
  mapOut := fun _dir input => (MeshCompiler.outputName input).map (fun o => [o])
  invocations := fun dir input => MeshCompiler.invocations filameshPath dir input
  outputPattern := fun f => ".filamesh".toList.isSuffixOf f

/-- Association lookup of a fingerprint by input name. -/
def lookupFp (n : FPath) : List (FPath × Fp) → Option Fp
  | [] => none
  | p :: rest => if n = p.1 then some p.2 else lookupFp n rest

/-- Modelled from the spec: the delta's changed set (section 4.1, step 2).
With no previous snapshot every current input is out of date; otherwise an
input is out of date when its fingerprint differs from the recorded one. -/
def computeChanged (prev : Option Snapshot) (inputs : List (FPath × Fp)) :
    List (FPath × Fp) :=
  match prev with
  | none => inputs
  | some p => inputs.filter (fun nf => decide (lookupFp nf.1 p ≠ some nf.2))

/-- Modelled from the spec: the delta's removed set (section 4.1, step 2):
snapshot entries whose input no longer exists. -/
def computeRemoved (prev : Option Snapshot) (inputs : List (FPath × Fp)) :
    List (FPath × Fp) :=
  (prev.getD []).filter (fun nf => decide (lookupFp nf.1 inputs = none))

/-- The outcome of processing the changed inputs: inputs recorded as
succeeded, per-input failures (input path, captured stderr), the tool
invocations performed, and the output names written. -/
structure ProcOut where
  succ : List (FPath × Fp)
  fails : List (FPath × List Char)
  invs : List Invocation
  wrote : List FPath
deriving DecidableEq

/-- Modelled from the spec: processing of a single changed input (section
4.1, step 3): map it, run its invocations; a failure is recorded with the
input's path and captured stderr (sections 4.3 and 7); a mapper error is
treated as a per-input filesystem error (section 7). -/
def processOne (s : TaskSpec) (tool : Tool) (dir : FPath) (nf : FPath × Fp) : ProcOut :=
  match s.mapOut dir nf.1 with
  | none => { succ := [], fails := [(nf.1, "output mapping failed".toList)], invs := [], wrote := [] }
  | some outs =>
      if (runInvs tool (s.invocations dir nf.1)).1 then
        { succ := [nf], fails := [], invs := (runInvs tool (s.invocations dir nf.1)).2.2,
          wrote := outs }
      else
        { succ := [], fails := [(nf.1, (runInvs tool (s.invocations dir nf.1)).2.1)],
          invs := (runInvs tool (s.invocations dir nf.1)).2.2, wrote := [] }

/-- Modelled from the spec: every changed input is processed; a failure of
one input does not abort the others (partial-failure semantics, section
4.1). -/
def processChanged (s : TaskSpec) (tool : Tool) (dir : FPath) :
    List (FPath × Fp) → ProcOut
  | [] => { succ := [], fails := [], invs := [], wrote := [] }
  | nf :: rest =>
      { succ := (processOne s tool dir nf).succ ++ (processChanged s tool dir rest).succ,
        fails := (processOne s tool dir nf).fails ++ (processChanged s tool dir rest).fails,
        invs := (processOne s tool dir nf).invs ++ (processChanged s tool dir rest).invs,
        wrote := (processOne s tool dir nf).wrote ++ (processChanged s tool dir rest).wrote }

/-- Deletion of the mapped outputs of the removed inputs, from
`getOutputFile(removed.file).delete()`: the mapper is re-run, each mapped
output is deleted, and the result of `delete()` is discarded — a failed
deletion (the oracle `del` returns false) leaves the file in place and is
recorded nowhere.  Returns the names actually deleted. -/
def deleteRemoved (s : TaskSpec) (del : FPath → Bool) (dir : FPath) :
    List (FPath × Fp) → List FPath
  | [] => []
  | nf :: rest =>
      (match s.mapOut dir nf.1 with
       | none => []
       | some outs => outs.filter del) ++ deleteRemoved s del dir rest

/-- The outcome of one task run. -/
structure RunResult where
  snapshot : Snapshot
  succeeded : List (FPath × Fp)
  failures : List (FPath × List Char)
  trace : List Invocation
  cleanedPre : List FPath
  outFiles : List FPath
deriving DecidableEq

/-- The run outcome is failed when any input failed. -/
def RunResult.failed (r : RunResult) : Bool := !r.failures.isEmpty

/-- Modelled from the spec: one run of the incremental task engine (section
4.1).  With no previous snapshot the output directory is first cleaned of
files matching the task's output pattern; the delta is computed; every
changed input is processed; outputs of removed inputs are deleted through
the same mapper; the new snapshot records the unchanged inputs and the
changed inputs that succeeded (a failed input is not recorded as a
success). -/
def engineRun (s : TaskSpec) (tool : Tool) (del : FPath → Bool) (dir : FPath)
    (prev : Option Snapshot) (fs : FS) : RunResult :=
  let cleaned := match prev with
    | none => fs.outFiles.filter (fun f => !(s.outputPattern f))
    | some _ => fs.outFiles
  let changed := computeChanged prev fs.inputs
  let removed := computeRemoved prev fs.inputs
  let p := processChanged s tool dir changed
  let deleted := deleteRemoved s del dir removed
  { snapshot := fs.inputs.filter (fun nf => decide (nf ∉ changed ∨ nf ∈ p.succ))
    succeeded := p.succ
    failures := p.fails
    trace := p.invs
    cleanedPre := cleaned
    outFiles := (cleaned ++ p.wrote).filter (fun f => decide (f ∉ deleted)) }

/-- Modelled from the spec: tool discovery runs when the build script is
evaluated, before any task executes; a discovery error therefore aborts the
whole run before any input is processed (section 7, missing tool). -/
def configureAndRun (name toolsPath : FPath) (isWindows : Bool)
    (fileExists : FPath → Bool) (mkSpec : FPath → TaskSpec) (tool : Tool)
    (del : FPath → Bool) (dir : FPath) (prev : Option Snapshot) (fs : FS) :
    Except FPath RunResult :=
  match getBinaries name toolsPath fileExists with
  | Except.error e => Except.error e
  | Except.ok bins => Except.ok (engineRun (mkSpec (selectBinary isWindows bins)) tool del dir prev fs)

/-! ### Mapper lemmas -/

theorem materialOutputName_dotted (b e : FPath) (he : '.' ∉ e) :
    MaterialCompiler.outputName (b ++ '.' :: e)
      = some ((b ++ ['.']) ++ "filamat".toList) := by
  have hd : lastIndexOfDot (b ++ '.' :: e) = (b.length : Int) :=
    lastIndexOfDot_append_dot b e (lastIndexOfDot_of_no_dot e he)
  have hlen : (b ++ '.' :: e).length = b.length + (e.length + 1) := by
    simp [List.length_append]
  have hga : groovyGetAt (b ++ '.' :: e) 0 (b.length : Int)
      = some ((b ++ '.' :: e).take ((b.length : Int).toNat + 1)) := by
    refine groovyGetAt_zero_nonneg _ _ (by positivity) ?_
    rw [hlen]
    push_cast
    omega
  have htn : ((b.length : Int)).toNat = b.length := Int.toNat_natCast b.length
  have htake : (b ++ '.' :: e).take (b.length + 1) = b ++ ['.'] := by
    rw [List.take_append_eq_append_take, List.take_of_length_le (by omega)]
    have : b.length + 1 - b.length = 1 := by omega
    rw [this]
    simp
  rw [MaterialCompiler.outputName, hd, hga, htn, htake]
  rfl

theorem meshOutputName_dotted (b e : FPath) (he : '.' ∉ e) :
    MeshCompiler.outputName (b ++ '.' :: e)
      = some ((b ++ ['.']) ++ "filamesh".toList) := by
  have hd : lastIndexOfDot (b ++ '.' :: e) = (b.length : Int) :=
    lastIndexOfDot_append_dot b e (lastIndexOfDot_of_no_dot e he)
  have hlen : (b ++ '.' :: e).length = b.length + (e.length + 1) := by
    simp [List.length_append]
  have hga : groovyGetAt (b ++ '.' :: e) 0 (b.length : Int)
      = some ((b ++ '.' :: e).take ((b.length : Int).toNat + 1)) := by
    refine groovyGetAt_zero_nonneg _ _ (by positivity) ?_
    rw [hlen]
    push_cast
    omega
  have htn : ((b.length : Int)).toNat = b.length := Int.toNat_natCast b.length
  have htake : (b ++ '.' :: e).take (b.length + 1) = b ++ ['.'] := by
    rw [List.take_append_eq_append_take, List.take_of_length_le (by omega)]
    have : b.length + 1 - b.length = 1 := by omega
    rw [this]
    simp
  rw [MeshCompiler.outputName, hd, hga, htn, htake]
  rfl

theorem materialOutputName_no_dot (name : FPath) (hne : name ≠ []) (hnd : '.' ∉ name) :
    MaterialCompiler.outputName name = some (name ++ "filamat".toList) := by
  rw [MaterialCompiler.outputName, lastIndexOfDot_of_no_dot name hnd,
    groovyGetAt_zero_neg_one name hne]
  rfl

theorem meshOutputName_no_dot (name : FPath) (hne : name ≠ []) (hnd : '.' ∉ name) :
    MeshCompiler.outputName name = some (name ++ "filamesh".toList) := by
  rw [MeshCompiler.outputName, lastIndexOfDot_of_no_dot name hnd,
    groovyGetAt_zero_neg_one name hne]
  rfl

theorem iblOutputName_no_dot (name : FPath) (h2 : 2 ≤ name.length) (hnd : '.' ∉ name) :
    IblGenerator.outputName name = some (name.take (name.length - 1)) := by
  rw [IblGenerator.outputName, lastIndexOfDot_of_no_dot name hnd]
  exact groovyGetAt_zero_neg_two name h2

theorem iblOutputName_no_dot_len_one (name : FPath) (h1 : name.length = 1)
    (hnd : '.' ∉ name) : IblGenerator.outputName name = none := by
  rw [IblGenerator.outputName, lastIndexOfDot_of_no_dot name hnd]
  exact groovyGetAt_len_one_neg_two name h1

/-! ### Claim theorems about the output mappers -/

/-- C2: for every input file whose name contains a dot (written as
`b ++ '.' :: e` with `e` the dot-free extension), the material mapper
returns exactly one output path in the output directory with the same base
name and the extension replaced by `filamat`, and the mesh mapper likewise
with `filamesh` (so `a.mat` maps to `a.filamat` and `a.obj` to
`a.filamesh`). -/
theorem mapper_replaces_extension (dir b e : FPath) (he : '.' ∉ e) :
    MaterialCompiler.getOutputFile dir (b ++ '.' :: e)
      = some { dir := dir, name := b ++ '.' :: "filamat".toList } ∧
    MeshCompiler.getOutputFile dir (b ++ '.' :: e)
      = some { dir := dir, name := b ++ '.' :: "filamesh".toList } := by
  constructor
  · rw [MaterialCompiler.getOutputFile, materialOutputName_dotted b e he]
    simp
  · rw [MeshCompiler.getOutputFile, meshOutputName_dotted b e he]
    simp

/-- Witness for C2: `a.mat` maps to `a.filamat` and `a.obj` to
`a.filamesh`. -/
theorem mapper_replaces_extension_w :
    ('.' ∉ "mat".toList ∧
      MaterialCompiler.getOutputFile "out".toList (['a'] ++ '.' :: "mat".toList)
        = some { dir := "out".toList, name := ['a'] ++ '.' :: "filamat".toList }) ∧
    ('.' ∉ "obj".toList ∧
      MeshCompiler.getOutputFile "out".toList (['a'] ++ '.' :: "obj".toList)
        = some { dir := "out".toList, name := ['a'] ++ '.' :: "filamesh".toList }) :=
  ⟨⟨by decide, (mapper_replaces_extension "out".toList ['a'] "mat".toList (by decide)).1⟩,
   ⟨by decide, (mapper_replaces_extension "out".toList ['a'] "obj".toList (by decide)).2⟩⟩

/-- C3 counterexample: the input file name `x` contains no dot, yet the IBL
mapper raises an index-out-of-bounds error on it (modelled as `none`), so
not every extensionless name is mapped without error. -/
theorem ibl_mapper_crashes_on_single_char_name :
    '.' ∉ ['x'] ∧ IblGenerator.getOutputFile "out".toList ['x'] = none := by
  constructor
  · decide
  · rfl

/-- C3 amended: for every nonempty input file name containing no dot, the
material and mesh mappers return an output path without raising an error;
the IBL mapper does so exactly for such names of length at least two, and
raises an index error on single-character extensionless names. -/
theorem extensionless_mapper_safety_amended (dir name : FPath) (hne : name ≠ [])
    (hnd : '.' ∉ name) :
    (MaterialCompiler.getOutputFile dir name).isSome = true ∧
    (MeshCompiler.getOutputFile dir name).isSome = true ∧
    ((IblGenerator.getOutputFile dir name).isSome = true ↔ 2 ≤ name.length) := by
  refine ⟨?_, ?_, ?_⟩
  · rw [MaterialCompiler.getOutputFile, materialOutputName_no_dot name hne hnd]
    rfl
  · rw [MeshCompiler.getOutputFile, meshOutputName_no_dot name hne hnd]
    rfl
  · constructor
    · intro h
      by_contra hlt
      have h1 : name.length = 1 := by
        have : name.length ≠ 0 := fun h0 => hne (List.length_eq_zero.mp h0)
        omega
      rw [IblGenerator.getOutputFile, iblOutputName_no_dot_len_one name h1 hnd] at h
      simp at h
    · intro h2
      rw [IblGenerator.getOutputFile, iblOutputName_no_dot name h2 hnd]
      rfl

/-- Witness for C3 (amended): the extensionless name `mesh` is mapped
without error by all three mappers. -/
theorem extensionless_mapper_safety_amended_w :
    ("mesh".toList ≠ ([] : FPath) ∧ '.' ∉ "mesh".toList) ∧
    ((MaterialCompiler.getOutputFile "out".toList "mesh".toList).isSome = true ∧
     (MeshCompiler.getOutputFile "out".toList "mesh".toList).isSome = true ∧
     ((IblGenerator.getOutputFile "out".toList "mesh".toList).isSome = true ↔
        2 ≤ "mesh".toList.length)) :=
  ⟨⟨by decide, by decide⟩,
   extensionless_mapper_safety_amended "out".toList "mesh".toList (by decide) (by decide)⟩

/-- C10: for every nonempty input file name containing no dot, the material
and mesh mappers return the whole name with the output extension
concatenated directly onto it with no separating dot (`mesh` maps to
`meshfilamat` resp. `meshfilamesh`), while the IBL mapper returns the name
with its final character removed for names of length at least two: three
mutually inconsistent extensionless-name policies. -/
theorem extensionless_mapper_policies (dir name : FPath) (hne : name ≠ [])
    (hnd : '.' ∉ name) :
    MaterialCompiler.getOutputFile dir name
      = some { dir := dir, name := name ++ "filamat".toList } ∧
    MeshCompiler.getOutputFile dir name
      = some { dir := dir, name := name ++ "filamesh".toList } ∧
    (2 ≤ name.length →
      IblGenerator.getOutputFile dir name
        = some { dir := dir, name := name.take (name.length - 1) }) := by
  refine ⟨?_, ?_, fun h2 => ?_⟩
  · rw [MaterialCompiler.getOutputFile, materialOutputName_no_dot name hne hnd]
    rfl
  · rw [MeshCompiler.getOutputFile, meshOutputName_no_dot name hne hnd]
    rfl
  · rw [IblGenerator.getOutputFile, iblOutputName_no_dot name h2 hnd]
    rfl

/-- Witness for C10: `mesh` maps to `meshfilamat`, `meshfilamesh`, and (IBL)
`mes`. -/
theorem extensionless_mapper_policies_w :
    ("mesh".toList ≠ ([] : FPath) ∧ '.' ∉ "mesh".toList ∧ 2 ≤ "mesh".toList.length) ∧
    MaterialCompiler.getOutputFile "out".toList "mesh".toList
      = some { dir := "out".toList, name := "mesh".toList ++ "filamat".toList } ∧
    IblGenerator.getOutputFile "out".toList "mesh".toList
      = some { dir := "out".toList, name := "mesh".toList.take ("mesh".toList.length - 1) } :=
  ⟨⟨by decide, by decide, by decide⟩,
   (extensionless_mapper_policies "out".toList "mesh".toList (by decide) (by decide)).1,
   (extensionless_mapper_policies "out".toList "mesh".toList (by decide) (by decide)).2.2
     (by decide)⟩

/-! ### Engine unfolding lemmas -/

theorem engineRun_failures (s : TaskSpec) (tool : Tool) (del : FPath → Bool)
    (dir : FPath) (prev : Option Snapshot) (fs : FS) :
    (engineRun s tool del dir prev fs).failures
      = (processChanged s tool dir (computeChanged prev fs.inputs)).fails := rfl

theorem engineRun_succeeded (s : TaskSpec) (tool : Tool) (del : FPath → Bool)
    (dir : FPath) (prev : Option Snapshot) (fs : FS) :
    (engineRun s tool del dir prev fs).succeeded
      = (processChanged s tool dir (computeChanged prev fs.inputs)).succ := rfl

theorem engineRun_trace (s : TaskSpec) (tool : Tool) (del : FPath → Bool)
    (dir : FPath) (prev : Option Snapshot) (fs : FS) :
    (engineRun s tool del dir prev fs).trace
      = (processChanged s tool dir (computeChanged prev fs.inputs)).invs := rfl

theorem engineRun_snapshot (s : TaskSpec) (tool : Tool) (del : FPath → Bool)
    (dir : FPath) (prev : Option Snapshot) (fs : FS) :
    (engineRun s tool del dir prev fs).snapshot
      = fs.inputs.filter (fun nf => decide (nf ∉ computeChanged prev fs.inputs ∨
          nf ∈ (processChanged s tool dir (computeChanged prev fs.inputs)).succ)) := rfl

theorem engineRun_outFiles (s : TaskSpec) (tool : Tool) (del : FPath → Bool)
    (dir : FPath) (prev : Option Snapshot) (fs : FS) :
    (engineRun s tool del dir prev fs).outFiles
      = ((engineRun s tool del dir prev fs).cleanedPre
            ++ (processChanged s tool dir (computeChanged prev fs.inputs)).wrote).filter
          (fun f => decide (f ∉ deleteRemoved s del dir (computeRemoved prev fs.inputs))) := rfl

theorem engineRun_cleanedPre_none (s : TaskSpec) (tool : Tool) (del : FPath → Bool)
    (dir : FPath) (fs : FS) :
    (engineRun s tool del dir none fs).cleanedPre
      = fs.outFiles.filter (fun f => !(s.outputPattern f)) := rfl

theorem engineRun_cleanedPre_some (s : TaskSpec) (tool : Tool) (del : FPath → Bool)
    (dir : FPath) (p : Snapshot) (fs : FS) :
    (engineRun s tool del dir (some p) fs).cleanedPre = fs.outFiles := rfl

/-! ### Helper lemmas about the engine -/

theorem processOne_succ_eq (s : TaskSpec) (tool : Tool) (dir : FPath) (x nf : FPath × Fp)
    (h : nf ∈ (processOne s tool dir x).succ) : nf = x := by
  rw [processOne] at h
  cases hm : s.mapOut dir x.1 with
  | none => rw [hm] at h; simp at h
  | some outs =>
      rw [hm] at h
      by_cases hr : (runInvs tool (s.invocations dir x.1)).1
      · simp [hr] at h
        exact h
      · simp [hr] at h

theorem processOne_invs_of_map (s : TaskSpec) (tool : Tool) (dir : FPath) (nf : FPath × Fp)
    (outs : List FPath) (hmap : s.mapOut dir nf.1 = some outs) :
    (processOne s tool dir nf).invs = (runInvs tool (s.invocations dir nf.1)).2.2 := by
  rw [processOne, hmap]
  by_cases hr : (runInvs tool (s.invocations dir nf.1)).1 <;> simp [hr]

theorem processChanged_fails_of_toolfail (s : TaskSpec) (tool : Tool) (dir : FPath)
    (l : List (FPath × Fp)) (nf : FPath × Fp) (outs : List FPath)
    (hm : nf ∈ l) (hmap : s.mapOut dir nf.1 = some outs)
    (hf : (runInvs tool (s.invocations dir nf.1)).1 = false) :
    (nf.1, (runInvs tool (s.invocations dir nf.1)).2.1)
      ∈ (processChanged s tool dir l).fails := by
  induction l with
  | nil => cases hm
  | cons hd tl ih =>
      simp only [processChanged]
      rcases List.mem_cons.mp hm with h | h
      · subst h
        refine List.mem_append_left _ ?_
        rw [processOne, hmap]
        simp [hf]
      · exact List.mem_append_right _ (ih h)

theorem processChanged_processes_all (s : TaskSpec) (tool : Tool) (dir : FPath)
    (l : List (FPath × Fp)) (nf : FPath × Fp) (hm : nf ∈ l) :
    nf ∈ (processChanged s tool dir l).succ ∨
      nf.1 ∈ (processChanged s tool dir l).fails.map Prod.fst := by
  induction l with
  | nil => cases hm
  | cons hd tl ih =>
      rcases List.mem_cons.mp hm with h | h
      · subst h
        cases hmap : s.mapOut dir nf.1 with
        | none =>
            right
            simp [processChanged, processOne, hmap]
        | some outs =>
            by_cases hr : (runInvs tool (s.invocations dir nf.1)).1
            · left
              simp [processChanged, processOne, hmap, hr]
            · right
              simp [processChanged, processOne, hmap, hr]
      · rcases ih h with h1 | h1
        · left
          simp only [processChanged]
          exact List.mem_append_right _ h1
        · right
          simp only [processChanged, List.map_append]
          exact List.mem_append_right _ h1

theorem processChanged_succ_sub (s : TaskSpec) (tool : Tool) (dir : FPath)
    (l : List (FPath × Fp)) (nf : FPath × Fp)
    (h : nf ∈ (processChanged s tool dir l).succ) : nf ∈ l := by
  induction l with
  | nil => simp [processChanged] at h
  | cons hd tl ih =>
      simp only [processChanged] at h
      rcases List.mem_append.mp h with h1 | h1
      · exact List.mem_cons.mpr (Or.inl (processOne_succ_eq s tool dir hd nf h1))
      · exact List.mem_cons.mpr (Or.inr (ih h1))

theorem lookupFp_eq_none_iff (n : FPath) (l : List (FPath × Fp)) :
    lookupFp n l = none ↔ n ∉ l.map Prod.fst := by
  induction l with
  | nil => simp [lookupFp]
  | cons hd tl ih =>
      rw [lookupFp]
      by_cases h : n = hd.1
      · simp [h]
      · simp [h, ih]

theorem lookupFp_mem_self (l : List (FPath × Fp)) (nf : FPath × Fp)
    (hnd : (l.map Prod.fst).Nodup) (h : nf ∈ l) : lookupFp nf.1 l = some nf.2 := by
  induction l with
  | nil => cases h
  | cons hd tl ih =>
      rw [List.map_cons, List.nodup_cons] at hnd
      rw [lookupFp]
      rcases List.mem_cons.mp h with h1 | h1
      · subst h1
        simp
      · have hne : nf.1 ≠ hd.1 := by
          intro he
          exact hnd.1 (he ▸ List.mem_map_of_mem Prod.fst h1)
        rw [if_neg hne]
        exact ih hnd.2 h1

theorem computeChanged_sub (prev : Option Snapshot) (inputs : List (FPath × Fp))
    (nf : FPath × Fp) (h : nf ∈ computeChanged prev inputs) : nf ∈ inputs := by
  cases prev with
  | none => exact h
  | some p => exact (List.mem_filter.mp h).1

theorem computeRemoved_not_current (prev : Option Snapshot) (inputs : List (FPath × Fp))
    (nf : FPath × Fp) (h : nf ∈ computeRemoved prev inputs) :
    nf.1 ∉ inputs.map Prod.fst := by
  have h2 := (List.mem_filter.mp h).2
  have hl : lookupFp nf.1 inputs = none := by
    simpa using h2
  exact (lookupFp_eq_none_iff nf.1 inputs).mp hl

theorem deleteRemoved_mem (s : TaskSpec) (del : FPath → Bool) (dir : FPath)
    (l : List (FPath × Fp)) (nf : FPath × Fp) (outs : List FPath) (o : FPath)
    (h : nf ∈ l) (hmap : s.mapOut dir nf.1 = some outs) (ho : o ∈ outs)
    (hdel : del o = true) : o ∈ deleteRemoved s del dir l := by
  induction l with
  | nil => cases h
  | cons hd tl ih =>
      simp only [deleteRemoved]
      rcases List.mem_cons.mp h with h1 | h1
      · subst h1
        refine List.mem_append_left _ ?_
        rw [hmap]
        exact List.mem_filter.mpr ⟨ho, hdel⟩
      · exact List.mem_append_right _ (ih h1)

theorem deleteRemoved_del_true (s : TaskSpec) (del : FPath → Bool) (dir : FPath)
    (l : List (FPath × Fp)) (o : FPath) (h : o ∈ deleteRemoved s del dir l) :
    del o = true := by
  induction l with
  | nil => simp [deleteRemoved] at h
  | cons hd tl ih =>
      simp only [deleteRemoved] at h
      rcases List.mem_append.mp h with h1 | h1
      · cases hm : s.mapOut dir hd.1 with
        | none => rw [hm] at h1; simp at h1
        | some outs =>
            rw [hm] at h1
            exact (List.mem_filter.mp h1).2
      · exact ih h1

/-! ### Claim theorems about the incremental engine -/

/-- C1: when the external tool exits with a non-zero status for one changed
input, that input is recorded as failed (with its captured stderr) in the
run outcome, every other changed input is still processed (it ends up
recorded as succeeded or as failed — the run is not aborted), the overall
outcome is failed, and the new snapshot still records the inputs that
succeeded. -/
theorem partial_failure_semantics (s : TaskSpec) (tool : Tool) (del : FPath → Bool)
    (dir : FPath) (prev : Option Snapshot) (fs : FS) (nf mf : FPath × Fp)
    (outs : List FPath)
    (hch : nf ∈ computeChanged prev fs.inputs)
    (hmap : s.mapOut dir nf.1 = some outs)
    (hfail : (runInvs tool (s.invocations dir nf.1)).1 = false)
    (hmf : mf ∈ computeChanged prev fs.inputs) :
    (nf.1, (runInvs tool (s.invocations dir nf.1)).2.1)
        ∈ (engineRun s tool del dir prev fs).failures ∧
    (mf ∈ (engineRun s tool del dir prev fs).succeeded ∨
      mf.1 ∈ (engineRun s tool del dir prev fs).failures.map Prod.fst) ∧
    (engineRun s tool del dir prev fs).failed = true ∧
    (mf ∈ (engineRun s tool del dir prev fs).succeeded →
      mf ∈ (engineRun s tool del dir prev fs).snapshot) := by
  have h1 : (nf.1, (runInvs tool (s.invocations dir nf.1)).2.1)
      ∈ (engineRun s tool del dir prev fs).failures := by
    rw [engineRun_failures]
    exact processChanged_fails_of_toolfail s tool dir _ nf outs hch hmap hfail
  refine ⟨h1, ?_, ?_, ?_⟩
  · rw [engineRun_succeeded, engineRun_failures]
    exact processChanged_processes_all s tool dir _ mf hmf
  · rw [RunResult.failed]
    cases hemp : (engineRun s tool del dir prev fs).failures with
    | nil => rw [hemp] at h1; cases h1
    | cons a l => rfl
  · intro hs
    rw [engineRun_snapshot]
    rw [engineRun_succeeded] at hs
    refine List.mem_filter.mpr ⟨computeChanged_sub prev fs.inputs mf hmf, ?_⟩
    exact decide_eq_true (Or.inr hs)

/-- Witness for C1: with a tool that always fails, a run over inputs
`a.mat` and `b.mat` records `a.mat` as failed, still processes `b.mat`, and
reports overall failure. -/
theorem partial_failure_semantics_w :
    (("a.mat".toList, 1) ∈ computeChanged none [("a.mat".toList, 1), ("b.mat".toList, 2)] ∧
     (materialSpec "matc".toList).mapOut "out".toList "a.mat".toList
        = some ["a.filamat".toList] ∧
     (runInvs (fun _ => (false, "boom".toList))
        ((materialSpec "matc".toList).invocations "out".toList "a.mat".toList)).1 = false ∧
     ("b.mat".toList, 2) ∈ computeChanged none [("a.mat".toList, 1), ("b.mat".toList, 2)]) ∧
    (("a.mat".toList,
        (runInvs (fun _ => (false, "boom".toList))
          ((materialSpec "matc".toList).invocations "out".toList "a.mat".toList)).2.1)
        ∈ (engineRun (materialSpec "matc".toList) (fun _ => (false, "boom".toList))
            (fun _ => true) "out".toList none
            { inputs := [("a.mat".toList, 1), ("b.mat".toList, 2)], outFiles := [] }).failures ∧
     (("b.mat".toList, 2) ∈ (engineRun (materialSpec "matc".toList)
            (fun _ => (false, "boom".toList)) (fun _ => true) "out".toList none
            { inputs := [("a.mat".toList, 1), ("b.mat".toList, 2)], outFiles := [] }).succeeded ∨
       "b.mat".toList ∈ (engineRun (materialSpec "matc".toList)
            (fun _ => (false, "boom".toList)) (fun _ => true) "out".toList none
            { inputs := [("a.mat".toList, 1), ("b.mat".toList, 2)], outFiles := [] }).failures.map Prod.fst) ∧
     (engineRun (materialSpec "matc".toList) (fun _ => (false, "boom".toList))
        (fun _ => true) "out".toList none
        { inputs := [("a.mat".toList, 1), ("b.mat".toList, 2)], outFiles := [] }).failed = true ∧
     (("b.mat".toList, 2) ∈ (engineRun (materialSpec "matc".toList)
            (fun _ => (false, "boom".toList)) (fun _ => true) "out".toList none
            { inputs := [("a.mat".toList, 1), ("b.mat".toList, 2)], outFiles := [] }).succeeded →
       ("b.mat".toList, 2) ∈ (engineRun (materialSpec "matc".toList)
            (fun _ => (false, "boom".toList)) (fun _ => true) "out".toList none
            { inputs := [("a.mat".toList, 1), ("b.mat".toList, 2)], outFiles := [] }).snapshot)) :=
  ⟨⟨by decide, by decide, by decide, by decide⟩,
   partial_failure_semantics (materialSpec "matc".toList) (fun _ => (false, "boom".toList))
     (fun _ => true) "out".toList none
     { inputs := [("a.mat".toList, 1), ("b.mat".toList, 2)], outFiles := [] }
     ("a.mat".toList, 1) ("b.mat".toList, 2) ["a.filamat".toList]
     (by decide) (by decide) (by decide) (by decide)⟩

/-- C6: for every out-of-date input of the IBL task (whose mapper succeeds
and whose first invocation's tool run starts, i.e. the exec does not
abort), cmgen is invoked exactly twice, first with `-x <outputDir> <input>`
and then with `--format=rgbm --extract-blur=0.08 --extract=<outputDir>
<input>`, in that order. -/
theorem ibl_invoked_twice (cmgenPath dir file : FPath) (fp : Fp) (tool : Tool)
    (out : FPath) (hm : IblGenerator.outputName file = some out)
    (h1 : (tool { exe := cmgenPath, args := ["-x".toList, dir, file] }).1 = true) :
    (processOne (iblSpec cmgenPath) tool dir (file, fp)).invs
      = [{ exe := cmgenPath, args := ["-x".toList, dir, file] },
         { exe := cmgenPath,
           args := ["--format=rgbm".toList, "--extract-blur=0.08".toList,
                    "--extract=".toList ++ dir, file] }] := by
  have hmap : (iblSpec cmgenPath).mapOut dir (file, fp).1 = some [out] := by
    simp [iblSpec, hm]
  rw [processOne_invs_of_map (iblSpec cmgenPath) tool dir (file, fp) [out] hmap]
  show (runInvs tool (IblGenerator.invocations cmgenPath dir file)).2.2 = _
  rw [IblGenerator.invocations, runInvs]
  simp only [h1, if_true]
  rw [runInvs]
  by_cases h2 : (tool { exe := cmgenPath, args := ["--format=rgbm".toList, "--extract-blur=0.08".toList, "--extract=".toList ++ dir, file] }).1 = true
  · rw [if_pos h2]
    rfl
  · rw [if_neg h2]

/-- Witness for C6: the IBL input `env.hdr` with an always-succeeding tool
yields exactly the two cmgen invocations, in order. -/
theorem ibl_invoked_twice_w :
    (IblGenerator.outputName "env.hdr".toList = some "env".toList ∧
     (((fun _ => (true, [])) : Tool) { exe := "cmgen".toList, args := ["-x".toList, "out".toList, "env.hdr".toList] }).1 = true) ∧
    (processOne (iblSpec "cmgen".toList) (fun _ => (true, [])) "out".toList
        ("env.hdr".toList, 1)).invs
      = [{ exe := "cmgen".toList, args := ["-x".toList, "out".toList, "env.hdr".toList] },
         { exe := "cmgen".toList,
           args := ["--format=rgbm".toList, "--extract-blur=0.08".toList,
                    "--extract=".toList ++ "out".toList, "env.hdr".toList] }] :=
  ⟨⟨by decide, by decide⟩,
   ibl_invoked_twice "cmgen".toList "out".toList "env.hdr".toList 1
     (fun _ => (true, [])) "env".toList (by decide) (by decide)⟩

theorem computeChanged_self_nil (inputs : List (FPath × Fp))
    (hnd : (inputs.map Prod.fst).Nodup) :
    computeChanged (some inputs) inputs = [] := by
  rw [computeChanged]
  refine List.filter_eq_nil.mpr ?_
  intro nf hm
  simp [lookupFp_mem_self inputs nf hnd hm]

theorem engineRun_matching_prev (s : TaskSpec) (tool : Tool) (del : FPath → Bool)
    (dir : FPath) (fs : FS) (hnd : (fs.inputs.map Prod.fst).Nodup) :
    (engineRun s tool del dir (some fs.inputs) fs).trace = [] ∧
    (engineRun s tool del dir (some fs.inputs) fs).snapshot = fs.inputs := by
  have hch := computeChanged_self_nil fs.inputs hnd
  constructor
  · rw [engineRun_trace, hch]
    rfl
  · rw [engineRun_snapshot, hch]
    refine List.filter_eq_self.mpr ?_
    intro nf hm
    exact decide_eq_true (Or.inl (List.not_mem_nil nf))

theorem engineRun_snapshot_of_no_failures (s : TaskSpec) (tool : Tool)
    (del : FPath → Bool) (dir : FPath) (prev : Option Snapshot) (fs : FS)
    (hok : (engineRun s tool del dir prev fs).failures = []) :
    (engineRun s tool del dir prev fs).snapshot = fs.inputs := by
  rw [engineRun_snapshot]
  refine List.filter_eq_self.mpr ?_
  intro nf hm
  by_cases hc : nf ∈ computeChanged prev fs.inputs
  · rcases processChanged_processes_all s tool dir _ nf hc with h1 | h1
    · exact decide_eq_true (Or.inr h1)
    · rw [engineRun_failures] at hok
      rw [hok] at h1
      simp at h1
  · exact decide_eq_true (Or.inl hc)

/-- C7: a run whose previous snapshot exactly matches the current inputs
(an empty delta) performs zero tool invocations and leaves the snapshot
unchanged; consequently, after any run with no failures, a second run with
no filesystem changes in between performs zero tool invocations and
produces an identical snapshot. -/
theorem empty_delta_idempotent (s : TaskSpec) (tool : Tool) (del : FPath → Bool)
    (dir : FPath) (prev : Option Snapshot) (fs : FS)
    (hnd : (fs.inputs.map Prod.fst).Nodup)
    (hok : (engineRun s tool del dir prev fs).failures = []) :
    (engineRun s tool del dir (some fs.inputs) fs).trace = [] ∧
    (engineRun s tool del dir (some fs.inputs) fs).snapshot = fs.inputs ∧
    (engineRun s tool del dir (some (engineRun s tool del dir prev fs).snapshot)
        { inputs := fs.inputs, outFiles := (engineRun s tool del dir prev fs).outFiles }).trace
      = [] ∧
    (engineRun s tool del dir (some (engineRun s tool del dir prev fs).snapshot)
        { inputs := fs.inputs, outFiles := (engineRun s tool del dir prev fs).outFiles }).snapshot
      = (engineRun s tool del dir prev fs).snapshot := by
  have hsnap := engineRun_snapshot_of_no_failures s tool del dir prev fs hok
  have h1 := engineRun_matching_prev s tool del dir fs hnd
  have h2 := engineRun_matching_prev s tool del dir
    { inputs := fs.inputs, outFiles := (engineRun s tool del dir prev fs).outFiles } hnd
  refine ⟨h1.1, h1.2, ?_, ?_⟩
  · rw [hsnap]
    exact h2.1
  · rw [hsnap]
    exact h2.2

/-- Witness for C7: a successful run over `a.mat`, followed by a second run
with the same inputs, performs no invocations the second time and keeps the
snapshot. -/
theorem empty_delta_idempotent_w :
    (([("a.mat".toList, 1)].map (Prod.fst (α := FPath) (β := Fp))).Nodup ∧
     (engineRun (materialSpec "matc".toList) (fun _ => (true, [])) (fun _ => true)
        "out".toList none { inputs := [("a.mat".toList, 1)], outFiles := [] }).failures = []) ∧
    (engineRun (materialSpec "matc".toList) (fun _ => (true, [])) (fun _ => true)
        "out".toList (some [("a.mat".toList, 1)])
        { inputs := [("a.mat".toList, 1)], outFiles := [] }).trace = [] ∧
    (engineRun (materialSpec "matc".toList) (fun _ => (true, [])) (fun _ => true)
        "out".toList
        (some (engineRun (materialSpec "matc".toList) (fun _ => (true, [])) (fun _ => true)
            "out".toList none { inputs := [("a.mat".toList, 1)], outFiles := [] }).snapshot)
        { inputs := [("a.mat".toList, 1)],
          outFiles := (engineRun (materialSpec "matc".toList) (fun _ => (true, []))
              (fun _ => true) "out".toList none
              { inputs := [("a.mat".toList, 1)], outFiles := [] }).outFiles }).trace = [] :=
  ⟨⟨by decide, by decide⟩,
   (empty_delta_idempotent (materialSpec "matc".toList) (fun _ => (true, []))
      (fun _ => true) "out".toList none { inputs := [("a.mat".toList, 1)], outFiles := [] }
      (by decide) (by decide)).1,
   (empty_delta_idempotent (materialSpec "matc".toList) (fun _ => (true, []))
      (fun _ => true) "out".toList none { inputs := [("a.mat".toList, 1)], outFiles := [] }
      (by decide) (by decide)).2.2.1⟩

/-- C4: with no previous snapshot (a non-incremental run), the engine first
deletes every file in the output directory matching the task's output
pattern — `*.filamat` for the material task, every file for the IBL task,
`*.filamesh` for the mesh task — and every current input is then processed
as changed. -/
theorem full_rebuild_semantics (s : TaskSpec) (tool : Tool) (del : FPath → Bool)
    (dir : FPath) (fs : FS) (f : FPath) (nf : FPath × Fp)
    (matcPath cmgenPath filameshPath : FPath)
    (hf : f ∈ fs.outFiles) (hp : s.outputPattern f = true) (hnf : nf ∈ fs.inputs) :
    (engineRun s tool del dir none fs).cleanedPre
        = fs.outFiles.filter (fun g => !(s.outputPattern g)) ∧
    f ∉ (engineRun s tool del dir none fs).cleanedPre ∧
    computeChanged none fs.inputs = fs.inputs ∧
    (nf ∈ (engineRun s tool del dir none fs).succeeded ∨
      nf.1 ∈ (engineRun s tool del dir none fs).failures.map Prod.fst) ∧
    (materialSpec matcPath).outputPattern f = ".filamat".toList.isSuffixOf f ∧
    (iblSpec cmgenPath).outputPattern f = true ∧
    (meshSpec filameshPath).outputPattern f = ".filamesh".toList.isSuffixOf f := by
  refine ⟨rfl, ?_, rfl, ?_, rfl, rfl, rfl⟩
  · intro hmem
    rw [engineRun_cleanedPre_none] at hmem
    have h2 := (List.mem_filter.mp hmem).2
    rw [hp] at h2
    simp at h2
  · rw [engineRun_succeeded, engineRun_failures]
    exact processChanged_processes_all s tool dir _ nf hnf

/-- Witness for C4: a full material rebuild deletes the stale `old.filamat`
before processing and processes `a.mat` as changed. -/
theorem full_rebuild_semantics_w :
    ("old.filamat".toList ∈ ["old.filamat".toList] ∧
     (materialSpec "matc".toList).outputPattern "old.filamat".toList = true ∧
     ("a.mat".toList, 1) ∈ [("a.mat".toList, 1)]) ∧
    "old.filamat".toList ∉ (engineRun (materialSpec "matc".toList) (fun _ => (true, []))
        (fun _ => true) "out".toList none
        { inputs := [("a.mat".toList, 1)], outFiles := ["old.filamat".toList] }).cleanedPre ∧
    (("a.mat".toList, 1) ∈ (engineRun (materialSpec "matc".toList) (fun _ => (true, []))
        (fun _ => true) "out".toList none
        { inputs := [("a.mat".toList, 1)], outFiles := ["old.filamat".toList] }).succeeded ∨
      "a.mat".toList ∈ (engineRun (materialSpec "matc".toList) (fun _ => (true, []))
        (fun _ => true) "out".toList none
        { inputs := [("a.mat".toList, 1)], outFiles := ["old.filamat".toList] }).failures.map Prod.fst) :=
  ⟨⟨by decide, by decide, by decide⟩,
   (full_rebuild_semantics (materialSpec "matc".toList) (fun _ => (true, []))
      (fun _ => true) "out".toList
      { inputs := [("a.mat".toList, 1)], outFiles := ["old.filamat".toList] }
      "old.filamat".toList ("a.mat".toList, 1) "matc".toList "cmgen".toList "filamesh".toList
      (by decide) (by decide) (by decide)).2.1,
   (full_rebuild_semantics (materialSpec "matc".toList) (fun _ => (true, []))
      (fun _ => true) "out".toList
      { inputs := [("a.mat".toList, 1)], outFiles := ["old.filamat".toList] }
      "old.filamat".toList ("a.mat".toList, 1) "matc".toList "cmgen".toList "filamesh".toList
      (by decide) (by decide) (by decide)).2.2.2.1⟩

/-- C5: an input present in the previous snapshot but no longer among the
current inputs has the outputs recomputed by the same mapper deleted, is
the subject of zero tool invocations (the whole trace comes from the
changed inputs, among which it does not appear), and is absent from the new
snapshot. -/
theorem removed_input_handling (s : TaskSpec) (tool : Tool) (del : FPath → Bool)
    (dir : FPath) (prev : Option Snapshot) (fs : FS) (nf : FPath × Fp)
    (outs : List FPath) (o : FPath)
    (hrem : nf ∈ computeRemoved prev fs.inputs)
    (hmap : s.mapOut dir nf.1 = some outs)
    (ho : o ∈ outs) (hdel : del o = true) :
    o ∉ (engineRun s tool del dir prev fs).outFiles ∧
    (engineRun s tool del dir prev fs).trace
      = (processChanged s tool dir (computeChanged prev fs.inputs)).invs ∧
    nf.1 ∉ (computeChanged prev fs.inputs).map Prod.fst ∧
    nf.1 ∉ (engineRun s tool del dir prev fs).snapshot.map Prod.fst := by
  have hnc := computeRemoved_not_current prev fs.inputs nf hrem
  refine ⟨?_, rfl, ?_, ?_⟩
  · intro hmem
    rw [engineRun_outFiles] at hmem
    have h2 := (List.mem_filter.mp hmem).2
    have h3 : o ∉ deleteRemoved s del dir (computeRemoved prev fs.inputs) :=
      of_decide_eq_true h2
    exact h3 (deleteRemoved_mem s del dir _ nf outs o hrem hmap ho hdel)
  · intro hmem
    rcases List.mem_map.mp hmem with ⟨x, hx, hx1⟩
    exact hnc (hx1 ▸ List.mem_map_of_mem Prod.fst (computeChanged_sub prev fs.inputs x hx))
  · intro hmem
    rw [engineRun_snapshot] at hmem
    rcases List.mem_map.mp hmem with ⟨x, hx, hx1⟩
    exact hnc (hx1 ▸ List.mem_map_of_mem Prod.fst (List.mem_filter.mp hx).1)

/-- Witness for C5: `c.mat` is recorded in the snapshot but no longer on
disk; its mapped `c.filamat` is deleted, no invocation happens for it, and
it is absent from the new snapshot. -/
theorem removed_input_handling_w :
    (("c.mat".toList, 3) ∈ computeRemoved (some [("b.mat".toList, 2), ("c.mat".toList, 3)])
        [("b.mat".toList, 2)] ∧
     (materialSpec "matc".toList).mapOut "out".toList "c.mat".toList
        = some ["c.filamat".toList] ∧
     "c.filamat".toList ∈ ["c.filamat".toList]) ∧
    "c.filamat".toList ∉ (engineRun (materialSpec "matc".toList) (fun _ => (true, []))
        (fun _ => true) "out".toList (some [("b.mat".toList, 2), ("c.mat".toList, 3)])
        { inputs := [("b.mat".toList, 2)], outFiles := ["c.filamat".toList] }).outFiles ∧
    "c.mat".toList ∉ (engineRun (materialSpec "matc".toList) (fun _ => (true, []))
        (fun _ => true) "out".toList (some [("b.mat".toList, 2), ("c.mat".toList, 3)])
        { inputs := [("b.mat".toList, 2)], outFiles := ["c.filamat".toList] }).snapshot.map Prod.fst :=
  ⟨⟨by decide, by decide, by decide⟩,
   (removed_input_handling (materialSpec "matc".toList) (fun _ => (true, []))
      (fun _ => true) "out".toList (some [("b.mat".toList, 2), ("c.mat".toList, 3)])
      { inputs := [("b.mat".toList, 2)], outFiles := ["c.filamat".toList] }
      ("c.mat".toList, 3) ["c.filamat".toList] "c.filamat".toList
      (by decide) (by decide) (by decide) (by decide)).1,
   (removed_input_handling (materialSpec "matc".toList) (fun _ => (true, []))
      (fun _ => true) "out".toList (some [("b.mat".toList, 2), ("c.mat".toList, 3)])
      { inputs := [("b.mat".toList, 2)], outFiles := ["c.filamat".toList] }
      ("c.mat".toList, 3) ["c.filamat".toList] "c.filamat".toList
      (by decide) (by decide) (by decide) (by decide)).2.2.2⟩

/-- C9 counterexample: one removed input `a.mat` whose mapped output
`a.filamat` fails to delete — the run outcome records no failure at all and
reports overall success while the file is still on disk, so the filesystem
failure silently disappears instead of appearing in the run outcome. -/
theorem delete_failure_silently_ignored :
    (engineRun (materialSpec "matc".toList) (fun _ => (true, [])) (fun _ => false)
        "out".toList (some [("a.mat".toList, 1)])
        { inputs := [], outFiles := ["a.filamat".toList] }).failures = [] ∧
    (engineRun (materialSpec "matc".toList) (fun _ => (true, [])) (fun _ => false)
        "out".toList (some [("a.mat".toList, 1)])
        { inputs := [], outFiles := ["a.filamat".toList] }).failed = false ∧
    (engineRun (materialSpec "matc".toList) (fun _ => (true, [])) (fun _ => false)
        "out".toList (some [("a.mat".toList, 1)])
        { inputs := [], outFiles := ["a.filamat".toList] }).outFiles
      = ["a.filamat".toList] := by
  refine ⟨rfl, rfl, rfl⟩

/-- C9 amended: every per-input tool failure appears in the run outcome
with the input path and the captured error stream, and the outcome's
failures stem exclusively from the processing of changed inputs; a
filesystem failure to delete a removed input's mapped output, however, is
silently discarded — the file stays in the output directory and nothing is
recorded, because the source ignores the result of `delete()`. -/
theorem per_input_failures_recorded (s : TaskSpec) (tool : Tool) (del : FPath → Bool)
    (dir : FPath) (p : Snapshot) (fs : FS) (nf : FPath × Fp) (outs : List FPath)
    (o : FPath)
    (hch : nf ∈ computeChanged (some p) fs.inputs)
    (hmap : s.mapOut dir nf.1 = some outs)
    (hfail : (runInvs tool (s.invocations dir nf.1)).1 = false)
    (ho : o ∈ fs.outFiles) (hdelf : del o = false) :
    (nf.1, (runInvs tool (s.invocations dir nf.1)).2.1)
        ∈ (engineRun s tool del dir (some p) fs).failures ∧
    (engineRun s tool del dir (some p) fs).failures
      = (processChanged s tool dir (computeChanged (some p) fs.inputs)).fails ∧
    o ∈ (engineRun s tool del dir (some p) fs).outFiles := by
  refine ⟨?_, rfl, ?_⟩
  · rw [engineRun_failures]
    exact processChanged_fails_of_toolfail s tool dir _ nf outs hch hmap hfail
  · rw [engineRun_outFiles]
    refine List.mem_filter.mpr ⟨?_, ?_⟩
    · rw [engineRun_cleanedPre_some]
      exact List.mem_append_left _ ho
    · refine decide_eq_true ?_
      intro hdm
      have hcontra := deleteRemoved_del_true s del dir _ o hdm
      rw [hdelf] at hcontra
      exact Bool.noConfusion hcontra

/-- Witness for C9 (amended): `a.mat` fails with captured stderr and is
recorded; the undeletable stale file remains on disk unrecorded. -/
theorem per_input_failures_recorded_w :
    ((("a.mat".toList, 1) ∈ computeChanged (some [("c.mat".toList, 3)])
        [("a.mat".toList, 1)] ∧
      (materialSpec "matc".toList).mapOut "out".toList "a.mat".toList
        = some ["a.filamat".toList] ∧
      (runInvs (fun _ => (false, "boom".toList))
        ((materialSpec "matc".toList).invocations "out".toList "a.mat".toList)).1 = false) ∧
     "stale.filamat".toList ∈ ["stale.filamat".toList] ∧
     ((fun _ => false) : FPath → Bool) "stale.filamat".toList = false) ∧
    (("a.mat".toList,
        (runInvs (fun _ => (false, "boom".toList))
          ((materialSpec "matc".toList).invocations "out".toList "a.mat".toList)).2.1)
        ∈ (engineRun (materialSpec "matc".toList) (fun _ => (false, "boom".toList))
            (fun _ => false) "out".toList (some [("c.mat".toList, 3)])
            { inputs := [("a.mat".toList, 1)], outFiles := ["stale.filamat".toList] }).failures ∧
     "stale.filamat".toList ∈ (engineRun (materialSpec "matc".toList)
            (fun _ => (false, "boom".toList)) (fun _ => false) "out".toList
            (some [("c.mat".toList, 3)])
            { inputs := [("a.mat".toList, 1)], outFiles := ["stale.filamat".toList] }).outFiles) :=
  ⟨⟨⟨by decide, by decide, by decide⟩, by decide, by decide⟩,
   (per_input_failures_recorded (materialSpec "matc".toList)
      (fun _ => (false, "boom".toList)) (fun _ => false) "out".toList
      [("c.mat".toList, 3)]
      { inputs := [("a.mat".toList, 1)], outFiles := ["stale.filamat".toList] }
      ("a.mat".toList, 1) ["a.filamat".toList] "stale.filamat".toList
      (by decide) (by decide) (by decide) (by decide) (by decide)).1,
   (per_input_failures_recorded (materialSpec "matc".toList)
      (fun _ => (false, "boom".toList)) (fun _ => false) "out".toList
      [("c.mat".toList, 3)]
      { inputs := [("a.mat".toList, 1)], outFiles := ["stale.filamat".toList] }
      ("a.mat".toList, 1) ["a.filamat".toList] "stale.filamat".toList
      (by decide) (by decide) (by decide) (by decide) (by decide)).2.2⟩

/-- C8 counterexample: with only `matc.exe` present on a non-Windows host,
tool discovery succeeds (`getBinaries` accepts when either candidate
exists) even though the configured, OS-selected executable `t/bin/matc`
does not exist; the run is not aborted before processing — the input
`a.mat` is processed (one invocation attempted) and fails per-input,
contradicting the claim that the run fails as a whole before any input is
processed. -/
theorem missing_selected_binary_still_processes :
    ((fun q => decide (q = "t/bin/matc.exe".toList)) : FPath → Bool)
        (selectBinary false (binCandidates "matc".toList "t".toList)) = false ∧
    (configureAndRun "matc".toList "t".toList false
        (fun q => decide (q = "t/bin/matc.exe".toList)) materialSpec
        (fun _ => (false, "cannot run program".toList)) (fun _ => true)
        "out".toList none { inputs := [("a.mat".toList, 1)], outFiles := [] }).map
          (fun r => r.failures.map Prod.fst) = Except.ok ["a.mat".toList] ∧
    (configureAndRun "matc".toList "t".toList false
        (fun q => decide (q = "t/bin/matc.exe".toList)) materialSpec
        (fun _ => (false, "cannot run program".toList)) (fun _ => true)
        "out".toList none { inputs := [("a.mat".toList, 1)], outFiles := [] }).map
          (fun r => r.trace.length) = Except.ok 1 := by
  refine ⟨rfl, rfl, rfl⟩

/-- C8 amended: when neither candidate executable path (the `.exe` form nor
the plain form) exists, tool discovery raises before any task executes, so
the whole run fails with the missing-tool error before any input is
processed; when at least one candidate exists, configuration succeeds even
if the OS-selected executable path itself does not exist. -/
theorem missing_tool_aborts_before_processing (name toolsPath : FPath)
    (fileExists : FPath → Bool) (isWindows : Bool) (mkSpec : FPath → TaskSpec)
    (tool : Tool) (del : FPath → Bool) (dir : FPath) (prev : Option Snapshot)
    (fs : FS) (h : ∀ c ∈ binCandidates name toolsPath, fileExists c = false) :
    getBinaries name toolsPath fileExists
      = Except.error ("No binary found: ".toList ++ name) ∧
    configureAndRun name toolsPath isWindows fileExists mkSpec tool del dir prev fs
      = Except.error ("No binary found: ".toList ++ name) := by
  have hany : (binCandidates name toolsPath).any fileExists = false := by
    rw [List.any_eq_false]
    intro c hc
    simp [h c hc]
  have hg : getBinaries name toolsPath fileExists
      = Except.error ("No binary found: ".toList ++ name) := by
    rw [getBinaries]
    simp [hany]
  exact ⟨hg, by simp only [configureAndRun, hg]⟩

/-- Witness for C8 (amended): with no binaries on disk at all, the matc
task's configuration aborts with the missing-tool error. -/
theorem missing_tool_aborts_before_processing_w :
    getBinaries "matc".toList "t".toList (fun _ => false)
      = Except.error ("No binary found: ".toList ++ "matc".toList) ∧
    configureAndRun "matc".toList "t".toList false (fun _ => false) materialSpec
        (fun _ => (true, [])) (fun _ => true) "out".toList none
        { inputs := [("a.mat".toList, 1)], outFiles := [] }
      = Except.error ("No binary found: ".toList ++ "matc".toList) :=
  missing_tool_aborts_before_processing "matc".toList "t".toList (fun _ => false)
    false materialSpec (fun _ => (true, [])) (fun _ => true) "out".toList none
    { inputs := [("a.mat".toList, 1)], outFiles := [] } (by decide)
